import Mathlib

/-!
Shallow embedding of the crustls demo server (src/examples/crustlserver/main.c).

Bytes are modelled as natural numbers, C byte buffers as lists of bytes.
The rustls connection (the secure transport engine) is external to the
repository; it is modelled abstractly as a queue of decrypted plaintext
bytes plus status flags, following its documented interface: a plaintext
read drains at most the caller-supplied buffer size, returns 0 when nothing
is available, and reports close_notify / errors as distinguished results.
All size_t arithmetic in the C code is performed on values that the proofs
show stay far below 2^64, so natural-number arithmetic is used; the one
place where a C value can be the wrapped -1 (the post-close-notify read)
is modelled explicitly by a sum type.
-/

namespace Crustls

/-- Linux errno value for EWOULDBLOCK; EAGAIN has the same value. -/
def EWOULDBLOCK : Nat := 11

/-- The enum crustls_demo_result of main.c lines 50-57. -/
inductive DemoResult
  | ok
  | error
  | again
  | eof
  | closeNotify
deriving DecidableEq

/-- The conndata_t fields relevant to the buffer logic (main.c lines 59-65).
The field buf models the whole allocation that data_from_client points to,
so that realloc and out-of-range writes are visible; the accumulated
plaintext is the first dataLen bytes of buf. -/
structure ConnData where
  buf : List Nat
  dataLen : Nat
  dataCapacity : Nat
deriving DecidableEq

/-- Abstract state of the external rustls connection as seen through
rustls_connection_read: decrypted plaintext not yet drained by the caller,
whether a close_notify alert has been processed, and whether plaintext
reads fail. -/
structure Engine where
  pending : List Nat
  closeNotifySeen : Bool
  readErr : Bool
deriving DecidableEq

/-- Result of one rustls_connection_read call. -/
inductive PlainRead
  | ok (chunk : List Nat)
  | closeNotify
  | err
deriving DecidableEq

/-- One rustls_connection_read(rconn, buf, avail, n) call: an error if the
engine is failing, the close_notify result once all plaintext is drained
and a close_notify alert was processed, and otherwise up to avail bytes of
pending plaintext (0 bytes meaning "no more bytes for now"). -/
def engineRead (e : Engine) (avail : Nat) : PlainRead × Engine :=
  if e.readErr then (.err, e)
  else if e.pending.isEmpty && e.closeNotifySeen then (.closeNotify, e)
  else
    let n := min avail e.pending.length
    (.ok (e.pending.take n), { e with pending := e.pending.drop n })

/-- Model of memcpy of chunk into allocation l at offset i, as performed by
the engine writing plaintext at data_from_client + data_len. -/
def memcpyAt (l : List Nat) (i : Nat) (chunk : List Nat) : List Nat :=
  l.take i ++ chunk ++ l.drop (i + chunk.length)

/-- Model of realloc(l, newSize): contents preserved up to newSize, any new
tail bytes modelled as zeros (their values are never read before being
overwritten, so the choice is immaterial). -/
def growAlloc (l : List Nat) (newSize : Nat) : List Nat :=
  l.take newSize ++ List.replicate (newSize - l.length) 0

/-- The headroom check of copy_plaintext_to_buffer, main.c lines 212-219:
when data_capacity - data_len < 1024 the allocation is realloc'ed to
data_capacity * 2 bytes.  Note that the C code does not update
data_capacity after the realloc; this model reproduces that faithfully. -/
def ensureHeadroom (c : ConnData) : ConnData :=
  if c.dataCapacity - c.dataLen < 1024 then
    { c with buf := growAlloc c.buf (c.dataCapacity * 2) }
  else c

/-- The for(;;) loop of copy_plaintext_to_buffer, main.c lines 221-243:
each iteration reads plaintext into buf + data_len with
avail = data_capacity - data_len - 1, returns CLOSE_NOTIFY or ERROR on the
distinguished engine results, returns OK when 0 bytes arrive, and otherwise
advances data_len and forwards the chunk to stdout via write_all; a failed
stdout write (sinkOk = false) returns ERROR.  The fuel argument bounds the
iteration count; each recursive call removes at least one pending byte, so
fuel = e.pending.length always suffices and the fuel-exhausted branch is
unreachable from copy_plaintext_to_buffer. -/
def copyLoop (sinkOk : Bool) : Nat → Engine → ConnData → DemoResult × Engine × ConnData
  | fuel, e, c =>
    match engineRead e (c.dataCapacity - c.dataLen - 1) with
    | (.closeNotify, e2) => (.closeNotify, e2, c)
    | (.err, e2) => (.error, e2, c)
    | (.ok chunk, e2) =>
      if chunk.isEmpty then (.ok, e2, c)
      else
        let c2 : ConnData := { c with buf := memcpyAt c.buf c.dataLen chunk,
                                      dataLen := c.dataLen + chunk.length }
        if sinkOk then
          match fuel with
          | 0 => (.error, e2, c2)
          | fuel' + 1 => copyLoop sinkOk fuel' e2 c2
        else (.error, e2, c2)

/-- copy_plaintext_to_buffer, main.c lines 205-246: the headroom check
followed by the drain loop.  sinkOk tells whether write_all on stdout
succeeds. -/
def copy_plaintext_to_buffer (sinkOk : Bool) (e : Engine) (c : ConnData) :
    DemoResult × Engine × ConnData :=
  copyLoop sinkOk e.pending.length e (ensureHeadroom c)

/-- Outcome of the raw read(conn->fd, buf, 2048) performed after a
close_notify: either n bytes were returned (n >= 0, errno untouched), or
the call failed returning -1 with errno set to e. -/
inductive RawReadOutcome
  | bytes (n : Nat)
  | errno (e : Nat)
deriving DecidableEq

/-- The half-close verification of do_read, main.c lines 299-307.  In C the
result of read is stored into the size_t n (so -1 becomes a huge nonzero
value) and the test is n != 0 && errno != EWOULDBLOCK.  When read succeeds
with n > 0 it does not set errno, so the errno consulted is whatever value
prevErrno the thread's errno happened to hold before the call. -/
def closeNotifyCheck (r : RawReadOutcome) (prevErrno : Nat) : DemoResult :=
  match r with
  | .bytes n => if n ≠ 0 ∧ prevErrno ≠ EWOULDBLOCK then .error else .closeNotify
  | .errno e => if e ≠ EWOULDBLOCK then .error else .closeNotify

/-- Parameters of the raw read performed after a close_notify signal. -/
structure CNPost where
  raw : RawReadOutcome
  prevErrno : Nat
deriving DecidableEq

/-- What one do_read call observes through read_cb and
process_new_packets.  A deliver event means read_cb returned 0 with rawLen
bytes pulled from the socket, after which process_new_packets either fails
(procErr), reports a close_notify alert, and/or makes plain available as
newly decrypted plaintext.  The constraint that concatenating the plain
fields of a run's deliveries yields exactly the peer's plaintext stream is
what ties a schedule to a TLS session. -/
structure Delivery where
  rawLen : Nat
  plain : List Nat
  closeNotifyAlert : Bool
  procErr : Bool
deriving DecidableEq

/-- The socket-side outcome of one do_read call: a delivery, a
would-block (read_cb returned EAGAIN/EWOULDBLOCK), or another errno. -/
inductive ReadEvent
  | deliver (d : Delivery)
  | wouldBlock
  | fatal (e : Nat)
deriving DecidableEq

/-- do_read, main.c lines 263-308: EAGAIN/EWOULDBLOCK from the raw read is
AGAIN; any other nonzero errno is ERROR; 0 bytes read is EOF; otherwise the
new records are processed (failure is ERROR) and the plaintext is drained
into the buffer; a CLOSE_NOTIFY result from the drain triggers the
half-close verification read. -/
def do_read (sinkOk : Bool) (cn : CNPost) (ev : ReadEvent) (e : Engine) (c : ConnData) :
    DemoResult × Engine × ConnData :=
  match ev with
  | .wouldBlock => (.again, e, c)
  | .fatal _ => (.error, e, c)
  | .deliver d =>
    if d.rawLen = 0 then (.eof, e, c)
    else if d.procErr then (.error, e, c)
    else
      match copy_plaintext_to_buffer sinkOk
          { e with pending := e.pending ++ d.plain,
                   closeNotifySeen := e.closeNotifySeen || d.closeNotifyAlert } c with
      | (.closeNotify, e2, c2) => (closeNotifyCheck cn.raw cn.prevErrno, e2, c2)
      | (r, e2, c2) => (r, e2, c2)

/-- The inner read loop of handle_conn, main.c lines 372-386: do_read is
repeated while it returns OK; AGAIN breaks back to the readiness wait
(result again here); CLOSE_NOTIFY, EOF and ERROR leave the loop for
cleanup.  The event list is the schedule of socket outcomes; an exhausted
schedule stands for a socket whose next read would block. -/
def readCycle (sinkOk : Bool) (cn : CNPost) :
    List ReadEvent → Engine → ConnData → DemoResult × Engine × ConnData
  | [], e, c => (.again, e, c)
  | ev :: rest, e, c =>
    match do_read sinkOk cn ev e c with
    | (.ok, e2, c2) => readCycle sinkOk cn rest e2 c2
    | (r, e2, c2) => (r, e2, c2)

/-- The readable branch of the outer handle_conn loop across successive
select rounds: each round runs one readCycle; an AGAIN result returns to
the readiness wait and the next round runs; any other result terminates
the connection with that result. -/
def runRounds (sinkOk : Bool) (cn : CNPost) :
    List (List ReadEvent) → Engine → ConnData → DemoResult × Engine × ConnData
  | [], e, c => (.again, e, c)
  | evs :: rest, e, c =>
    match readCycle sinkOk cn evs e c with
    | (.again, e2, c2) => runRounds sinkOk cn rest e2 c2
    | (r, e2, c2) => (r, e2, c2)

/-- What write_cb (main.c lines 152-167) makes rustls_connection_write_tls
return: on a successful raw write of n bytes the io error is 0 and out_n
is n; on a failed raw write the errno (EWOULDBLOCK for a would-block)
becomes the nonzero io error. -/
inductive RawWriteOutcome
  | wrote (n : Nat)
  | errno (e : Nat)
deriving DecidableEq

/-- The pair (err, n) that handle_conn receives back from
rustls_connection_write_tls for a given raw-write outcome. -/
def write_cb (r : RawWriteOutcome) : Nat × Nat :=
  match r with
  | .wrote n => (0, n)
  | .errno e => (e, 0)

/-- Where the writable branch of handle_conn sends control. -/
inductive StepOut
  | toSelect
  | cleanupExit
deriving DecidableEq

/-- The writable branch of handle_conn, main.c lines 388-399: a nonzero
error from write_tls jumps to cleanup; n == 0 is printed as EOF and also
jumps to cleanup; otherwise the loop continues to the next iteration. -/
def writeTlsBranch (err n : Nat) : StepOut :=
  if err ≠ 0 then .cleanupExit
  else if n = 0 then .cleanupExit
  else .toSelect

/-- Naive byte-wise substring test: whether needle occurs contiguously in
the haystack, the semantics of a strstr hit within a C string. -/
def occursInList (needle : List Nat) : List Nat → Bool
  | [] => needle.isEmpty
  | b :: rest => (decide (needle = (b :: rest).take needle.length)) || occursInList needle rest

/-- The byte pattern of the terminator string, a double CRLF. -/
def crlfcrlf : List Nat := [13, 10, 13, 10]

/-- request_is_finished, main.c lines 310-314: writes a 0 sentinel byte at
index data_len of the allocation, then runs strstr(data_from_client,
pattern).  strstr scans the C string starting at the allocation, i.e. the
bytes before the first 0, so the scan is modelled by takeWhile over the
sentinel-updated allocation.  Returns the strstr verdict together with the
mutated connection. -/
def request_is_finished (c : ConnData) : Bool × ConnData :=
  let c2 : ConnData := { c with buf := c.buf.set c.dataLen 0 }
  (occursInList crlfcrlf (c2.buf.takeWhile (fun b => b ≠ 0)), c2)

/-- The enum exchange_state of main.c lines 248-251. -/
inductive exchange_state
  | READING_REQUEST
  | SENT_RESPONSE
deriving DecidableEq

/-- The response step of handle_conn, main.c lines 401-405: only when the
state is READING_REQUEST and the terminator scan succeeds does the state
move to SENT_RESPONSE and the fixed reply get written (the Bool result);
in every other case nothing happens.  finished abstracts the outcome of
request_is_finished at this iteration. -/
def exchangeStep (st : exchange_state) (finished : Bool) : exchange_state × Bool :=
  match st, finished with
  | .READING_REQUEST, true => (.SENT_RESPONSE, true)
  | _, _ => (st, false)

/-- Folding exchangeStep over the per-iteration terminator-scan outcomes of
a whole connection, counting how many times the reply is written. -/
def exchangeRun (st : exchange_state) : List Bool → exchange_state × Nat
  | [] => (st, 0)
  | f :: fs =>
    let s1 := exchangeStep st f
    let s2 := exchangeRun s1.1 fs
    (s2.1, (if s1.2 then 1 else 0) + s2.2)

/-- The per-connection state allocated in main, lines 512-516:
calloc(1, 2048) for the data buffer (so 2048 zero bytes) and
data_capacity = 2048, data_len = 0. -/
def initialConn : ConnData :=
  { buf := List.replicate 2048 0, dataLen := 0, dataCapacity := 2048 }

/-- A fresh engine: no plaintext pending, no close_notify, healthy. -/
def initialEngine : Engine :=
  { pending := [], closeNotifySeen := false, readErr := false }

/-- Which per-connection resources a teardown releases. -/
structure CleanupEffect where
  socketClosed : Bool
  engineFreed : Bool
  accumulatorFreed : Bool
deriving DecidableEq

/-- The cleanup label of handle_conn, main.c lines 410-414, the single exit
path of the connection loop: it closes the socket when sockfd > 0 and does
nothing else; in particular neither rustls_connection_free nor free of
data_from_client is called anywhere in handle_conn. -/
def handleConnCleanup (sockfd : Int) : CleanupEffect :=
  { socketClosed := decide (sockfd > 0), engineFreed := false, accumulatorFreed := false }

/-! Helper lemmas shared by the claim theorems. -/

theorem memcpyAt_nil (l : List Nat) (i : Nat) : memcpyAt l i [] = l := by
  simp [memcpyAt]

theorem growAlloc_length (l : List Nat) (n : Nat) (h : l.length ≤ n) :
    (growAlloc l n).length = n := by
  simp [growAlloc]
  omega

theorem ensureHeadroom_dataLen (c : ConnData) : (ensureHeadroom c).dataLen = c.dataLen := by
  unfold ensureHeadroom
  split <;> rfl

theorem ensureHeadroom_dataCapacity (c : ConnData) :
    (ensureHeadroom c).dataCapacity = c.dataCapacity := by
  unfold ensureHeadroom
  split <;> rfl

theorem copyLoop_drain (fuel : Nat) (e : Engine) (c : ConnData)
    (hE : e.readErr = false) (hCN : e.closeNotifySeen = false)
    (hF : e.pending.length ≤ fuel) :
    copyLoop true fuel e c =
      (DemoResult.ok,
       { e with pending := e.pending.drop (min (c.dataCapacity - c.dataLen - 1) e.pending.length) },
       { c with buf := memcpyAt c.buf c.dataLen
                  (e.pending.take (min (c.dataCapacity - c.dataLen - 1) e.pending.length)),
                dataLen := c.dataLen + min (c.dataCapacity - c.dataLen - 1) e.pending.length }) := by
  induction fuel generalizing e c with
  | zero =>
    have hp : e.pending = [] := List.length_eq_zero.mp (Nat.le_zero.mp hF)
    rw [copyLoop]
    simp [engineRead, hE, hCN, hp, memcpyAt_nil]
  | succ f ih =>
    rcases hmin : min (c.dataCapacity - c.dataLen - 1) e.pending.length with _ | d
    · rw [copyLoop]
      simp [engineRead, hE, hCN, hmin, memcpyAt_nil]
    · have hne : ¬(e.pending.take (d + 1)).isEmpty := by
        have hlen : (e.pending.take (d + 1)).length = d + 1 := by
          rw [List.length_take]
          omega
        simp [List.isEmpty_iff, ← List.length_eq_zero, hlen]
      rw [copyLoop]
      simp only [engineRead, hE, hCN, Bool.and_false, if_false, Bool.false_eq_true,
        ite_false, hmin, hne]
      rw [ih]
      · have hmin2 : (d + 1) ⊓ e.pending.length = d + 1 := by omega
        have hz : (c.dataCapacity - (c.dataLen + (d + 1)) - 1) ⊓ (e.pending.length - (d + 1)) = 0 := by
          omega
        simp [List.length_take, List.length_drop, hmin2, hz, memcpyAt_nil]
      · rfl
      · rfl
      · rw [List.length_drop]
        omega

theorem copyLoop_inv (sinkOk : Bool) (fuel : Nat) (e : Engine) (c : ConnData)
    (h : c.dataLen < c.dataCapacity) :
    (copyLoop sinkOk fuel e c).2.2.dataLen < (copyLoop sinkOk fuel e c).2.2.dataCapacity ∧
    (copyLoop sinkOk fuel e c).2.2.dataCapacity = c.dataCapacity := by
  induction fuel generalizing e c with
  | zero =>
    rw [copyLoop]
    by_cases h1 : e.readErr
    · simp [engineRead, h1] <;> (try dsimp only) <;> omega
    · by_cases h2 : e.pending.isEmpty && e.closeNotifySeen
      · simp [engineRead, h1, h2] <;> (try dsimp only) <;> omega
      · by_cases h3 : (e.pending.take (min (c.dataCapacity - c.dataLen - 1) e.pending.length)).isEmpty
        · simp [engineRead, h1, h2, h3] <;> (try dsimp only) <;> omega
        · cases sinkOk <;> simp [engineRead, h1, h2, h3] <;> (try dsimp only) <;> omega
  | succ f ih =>
    rw [copyLoop]
    by_cases h1 : e.readErr
    · simp [engineRead, h1] <;> (try dsimp only) <;> omega
    · by_cases h2 : e.pending.isEmpty && e.closeNotifySeen
      · simp [engineRead, h1, h2] <;> (try dsimp only) <;> omega
      · by_cases h3 : (e.pending.take (min (c.dataCapacity - c.dataLen - 1) e.pending.length)).isEmpty
        · simp [engineRead, h1, h2, h3] <;> (try dsimp only) <;> omega
        · cases sinkOk
          · simp [engineRead, h1, h2, h3] <;> (try dsimp only) <;> omega
          · have hrec := ih
              ⟨e.pending.drop (min (c.dataCapacity - c.dataLen - 1) e.pending.length),
                e.closeNotifySeen, e.readErr⟩
              ⟨memcpyAt c.buf c.dataLen
                  (e.pending.take (min (c.dataCapacity - c.dataLen - 1) e.pending.length)),
                c.dataLen +
                  (e.pending.take (min (c.dataCapacity - c.dataLen - 1) e.pending.length)).length,
                c.dataCapacity⟩
              (by dsimp only; rw [List.length_take]; omega)
            simpa [engineRead, h1, h2, h3] using hrec

theorem copy_plaintext_to_buffer_inv (sinkOk : Bool) (e : Engine) (c : ConnData)
    (h : c.dataLen < c.dataCapacity) :
    (copy_plaintext_to_buffer sinkOk e c).2.2.dataLen <
      (copy_plaintext_to_buffer sinkOk e c).2.2.dataCapacity ∧
    (copy_plaintext_to_buffer sinkOk e c).2.2.dataCapacity = c.dataCapacity := by
  have h2 : (ensureHeadroom c).dataLen < (ensureHeadroom c).dataCapacity := by
    rw [ensureHeadroom_dataLen, ensureHeadroom_dataCapacity]
    exact h
  have := copyLoop_inv sinkOk e.pending.length e (ensureHeadroom c) h2
  rw [copy_plaintext_to_buffer]
  rw [ensureHeadroom_dataCapacity] at this
  exact this

theorem do_read_inv (sinkOk : Bool) (cn : CNPost) (ev : ReadEvent) (e : Engine) (c : ConnData)
    (h : c.dataLen < c.dataCapacity) :
    (do_read sinkOk cn ev e c).2.2.dataLen < (do_read sinkOk cn ev e c).2.2.dataCapacity ∧
    (do_read sinkOk cn ev e c).2.2.dataCapacity = c.dataCapacity := by
  match ev with
  | .wouldBlock => exact ⟨h, rfl⟩
  | .fatal err => exact ⟨h, rfl⟩
  | .deliver d =>
    rw [do_read]
    by_cases h0 : d.rawLen = 0
    · simp [h0]
      omega
    · by_cases h1 : d.procErr
      · simp [h0, h1]
        omega
      · have hc := copy_plaintext_to_buffer_inv sinkOk
          ⟨e.pending ++ d.plain, e.closeNotifySeen || d.closeNotifyAlert, e.readErr⟩ c h
        simp only [h0, h1, if_false, Bool.false_eq_true, ite_false]
        rcases hcp : copy_plaintext_to_buffer sinkOk
            ⟨e.pending ++ d.plain, e.closeNotifySeen || d.closeNotifyAlert, e.readErr⟩ c with
          ⟨r, e2, c2⟩
        rw [hcp] at hc
        rcases r <;> simpa using hc

theorem readCycle_inv (sinkOk : Bool) (cn : CNPost) (evs : List ReadEvent) (e : Engine)
    (c : ConnData) (h : c.dataLen < c.dataCapacity) :
    (readCycle sinkOk cn evs e c).2.2.dataLen < (readCycle sinkOk cn evs e c).2.2.dataCapacity ∧
    (readCycle sinkOk cn evs e c).2.2.dataCapacity = c.dataCapacity := by
  induction evs generalizing e c with
  | nil => exact ⟨h, rfl⟩
  | cons ev rest ih =>
    rw [readCycle]
    have hd := do_read_inv sinkOk cn ev e c h
    rcases hdr : do_read sinkOk cn ev e c with ⟨r, e2, c2⟩
    rw [hdr] at hd
    dsimp only at hd
    rcases r
    · have := ih e2 c2 hd.1
      simpa [hd.2] using this
    · simpa using hd
    · simpa using hd
    · simpa using hd
    · simpa using hd

theorem runRounds_inv (sinkOk : Bool) (cn : CNPost) (rounds : List (List ReadEvent))
    (e : Engine) (c : ConnData) (h : c.dataLen < c.dataCapacity) :
    (runRounds sinkOk cn rounds e c).2.2.dataLen <
      (runRounds sinkOk cn rounds e c).2.2.dataCapacity ∧
    (runRounds sinkOk cn rounds e c).2.2.dataCapacity = c.dataCapacity := by
  induction rounds generalizing e c with
  | nil => exact ⟨h, rfl⟩
  | cons evs rest ih =>
    rw [runRounds]
    have hd := readCycle_inv sinkOk cn evs e c h
    rcases hdr : readCycle sinkOk cn evs e c with ⟨r, e2, c2⟩
    rw [hdr] at hd
    dsimp only at hd
    rcases r
    · simpa using hd
    · simpa using hd
    · have := ih e2 c2 hd.1
      simpa [hd.2] using this
    · simpa using hd
    · simpa using hd

theorem takeWhile_set_zero (l : List Nat) (n : Nat) (h : n < l.length) :
    (l.set n 0).takeWhile (fun b => b ≠ 0) = (l.take n).takeWhile (fun b => b ≠ 0) := by
  induction l generalizing n with
  | nil => simp at h
  | cons a t ih =>
    cases n with
    | zero => simp [List.set]
    | succ m =>
      rw [List.set_cons_succ, List.take_succ_cons, List.takeWhile_cons, List.takeWhile_cons]
      by_cases ha : a = 0
      · simp [ha]
      · simp [ha]
        simpa using ih m (by simpa using h)

theorem exchangeRun_sent (fs : List Bool) :
    exchangeRun exchange_state.SENT_RESPONSE fs = (exchange_state.SENT_RESPONSE, 0) := by
  induction fs with
  | nil => rfl
  | cons f fs ih => simp [exchangeRun, exchangeStep, ih]

theorem exchangeRun_count_le_one (fs : List Bool) :
    (exchangeRun exchange_state.READING_REQUEST fs).2 ≤ 1 := by
  induction fs with
  | nil => simp [exchangeRun]
  | cons f fs ih =>
    cases f
    · simpa [exchangeRun, exchangeStep] using ih
    · simp [exchangeRun, exchangeStep, exchangeRun_sent]

/-! Claim theorems. -/

/-- C2 counterexample: a WouldBlock outcome from the raw write primitive
does terminate the connection.  write_cb turns a raw-write failure with
errno EWOULDBLOCK into the nonzero io error EWOULDBLOCK, and the writable
branch of handle_conn jumps to cleanup on any nonzero error, so the
connection is torn down rather than returning to the readiness wait. -/
theorem c2_counterexample :
    writeTlsBranch (write_cb (RawWriteOutcome.errno EWOULDBLOCK)).1
      (write_cb (RawWriteOutcome.errno EWOULDBLOCK)).2 = StepOut.cleanupExit := by
  decide

/-- C2 (amended): a WouldBlock outcome from the raw read primitive never
terminates the connection: do_read maps it to AGAIN, the read cycle stops
with AGAIN leaving the state untouched, and the outer loop goes back to the
readiness wait and keeps processing later rounds; but a WouldBlock surfaced
as the io error of write_tls jumps to cleanup and terminates. -/
theorem c2_read_wouldBlock_returns_to_wait :
    (∀ (sinkOk : Bool) (cn : CNPost) (e : Engine) (c : ConnData),
        do_read sinkOk cn ReadEvent.wouldBlock e c = (DemoResult.again, e, c)) ∧
    (∀ (sinkOk : Bool) (cn : CNPost) (rest : List ReadEvent) (e : Engine) (c : ConnData),
        readCycle sinkOk cn (ReadEvent.wouldBlock :: rest) e c = (DemoResult.again, e, c)) ∧
    (∀ (sinkOk : Bool) (cn : CNPost) (rounds : List (List ReadEvent)) (e : Engine) (c : ConnData),
        runRounds sinkOk cn ([ReadEvent.wouldBlock] :: rounds) e c =
          runRounds sinkOk cn rounds e c) ∧
    (∀ n : Nat, writeTlsBranch EWOULDBLOCK n = StepOut.cleanupExit) := by
  refine ⟨fun _ _ _ _ => rfl, fun _ _ _ _ _ => rfl, fun _ _ _ _ _ => rfl, fun n => ?_⟩
  simp [writeTlsBranch, EWOULDBLOCK]

/-- C3 counterexample: write_tls returning 0 bytes flushed with no error
(err = 0, n = 0, a successful raw write of 0 bytes) is not treated as a
normal outcome: the writable branch jumps to cleanup instead of continuing
to the next iteration. -/
theorem c3_counterexample :
    writeTlsBranch (write_cb (RawWriteOutcome.wrote 0)).1
      (write_cb (RawWriteOutcome.wrote 0)).2 = StepOut.cleanupExit ∧
    StepOut.cleanupExit ≠ StepOut.toSelect := by
  decide

/-- C3 (amended): when the socket is writable, write_tls is invoked once
per loop iteration and the loop continues only for a positive flush count
with no error; a 0-byte flush with no error is treated as EOF and
terminates the connection, and any nonzero error also terminates it. -/
theorem c3_write_branch_outcomes :
    (∀ n : Nat, writeTlsBranch 0 (n + 1) = StepOut.toSelect) ∧
    (∀ err n : Nat, err ≠ 0 → writeTlsBranch err n = StepOut.cleanupExit) ∧
    writeTlsBranch 0 0 = StepOut.cleanupExit := by
  refine ⟨fun n => ?_, fun err n h => ?_, by decide⟩
  · simp [writeTlsBranch]
  · simp [writeTlsBranch, h]

/-- Witness for c3_write_branch_outcomes at a positive flush count and at
err = 5, n = 0. -/
theorem c3_write_branch_outcomes_witness :
    writeTlsBranch 0 1 = StepOut.toSelect ∧ writeTlsBranch 5 0 = StepOut.cleanupExit :=
  ⟨c3_write_branch_outcomes.1 0, c3_write_branch_outcomes.2.1 5 0 (by decide)⟩

/-- C4: evidence that the tracked capacity never doubles.  In a reachable
state with data_len = 1025 (free space 1023 < 1024) the headroom branch
fires: the allocation is realloc'ed to data_capacity * 2 = 4096 bytes, yet
data_capacity remains 2048, and it remains 2048 even when the branch fires
again; the claimed doubling of the capacity does not happen. -/
theorem c4_capacity_never_doubles :
    ((⟨List.replicate 2048 0, 1025, 2048⟩ : ConnData).dataCapacity -
        (⟨List.replicate 2048 0, 1025, 2048⟩ : ConnData).dataLen < 1024) ∧
    (ensureHeadroom ⟨List.replicate 2048 0, 1025, 2048⟩).dataCapacity = 2048 ∧
    (ensureHeadroom ⟨List.replicate 2048 0, 1025, 2048⟩).buf.length = 4096 ∧
    (ensureHeadroom (ensureHeadroom ⟨List.replicate 2048 0, 1025, 2048⟩)).dataCapacity = 2048 := by
  refine ⟨by decide, ?_, ?_, ?_⟩
  · rw [ensureHeadroom_dataCapacity]
  · have hh : ensureHeadroom ⟨List.replicate 2048 0, 1025, 2048⟩ =
        ⟨growAlloc (List.replicate 2048 0) 4096, 1025, 2048⟩ := by
      rw [ensureHeadroom]
      norm_num
    rw [hh]
    dsimp only
    rw [growAlloc_length (List.replicate 2048 0) 4096 (by rw [List.length_replicate]; omega)]
  · rw [ensureHeadroom_dataCapacity, ensureHeadroom_dataCapacity]

/-- C5: the fixed reply is written at most once per connection.  Starting
from READING_REQUEST, any sequence of terminator-scan outcomes produces at
most one reply; once in SENT_RESPONSE the state stays SENT_RESPONSE forever
and no further reply is ever written, however many further terminator
patterns arrive. -/
theorem c5_reply_at_most_once :
    (∀ fs : List Bool, (exchangeRun exchange_state.READING_REQUEST fs).2 ≤ 1) ∧
    (∀ fs : List Bool,
        exchangeRun exchange_state.SENT_RESPONSE fs = (exchange_state.SENT_RESPONSE, 0)) ∧
    (∀ f : Bool,
        (exchangeStep exchange_state.SENT_RESPONSE f).1 = exchange_state.SENT_RESPONSE ∧
        (exchangeStep exchange_state.SENT_RESPONSE f).2 = false) :=
  ⟨exchangeRun_count_le_one, exchangeRun_sent, fun f => by cases f <;> exact ⟨rfl, rfl⟩⟩

/-- C6: behaviour of the post-close-notify verification read.  The first
conjunct is the divergence from the claim: when the read returns 5 bytes
(the peer kept sending after close_notify) but the thread's errno still
holds EWOULDBLOCK from an earlier would-block read, the code reports a
clean close instead of a protocol violation, because it consults errno
even though the successful read did not set it.  The remaining conjuncts
show the other paths: bytes with a non-EWOULDBLOCK stale errno report the
violation, 0 bytes is clean, a failed read with errno EWOULDBLOCK is
clean, and a failed read with another errno is an error. -/
theorem c6_close_notify_check :
    closeNotifyCheck (RawReadOutcome.bytes 5) EWOULDBLOCK = DemoResult.closeNotify ∧
    closeNotifyCheck (RawReadOutcome.bytes 5) 0 = DemoResult.error ∧
    closeNotifyCheck (RawReadOutcome.bytes 0) EWOULDBLOCK = DemoResult.closeNotify ∧
    closeNotifyCheck (RawReadOutcome.bytes 0) 0 = DemoResult.closeNotify ∧
    closeNotifyCheck (RawReadOutcome.errno EWOULDBLOCK) 0 = DemoResult.closeNotify ∧
    closeNotifyCheck (RawReadOutcome.errno 104) 0 = DemoResult.error := by
  decide

/-- C9 counterexample: on the exit path of handle_conn with socket fd 7,
the engine and the accumulator are not released, contradicting the claim
that every exit path releases them alongside closing the socket. -/
theorem c9_counterexample :
    (handleConnCleanup 7).engineFreed = false ∧
    (handleConnCleanup 7).accumulatorFreed = false := by
  decide

/-- C9 (amended): on every exit path of handle_conn the socket is closed
(whenever its fd is positive), but neither the engine nor the accumulator
is released there; they outlive the socket, and main frees only the most
recently created engine when its accept loop exits. -/
theorem c9_cleanup_only_closes_socket (fd : Int) (h : 0 < fd) :
    (handleConnCleanup fd).socketClosed = true ∧
    (handleConnCleanup fd).engineFreed = false ∧
    (handleConnCleanup fd).accumulatorFreed = false := by
  refine ⟨?_, rfl, rfl⟩
  simp [handleConnCleanup]
  exact h

/-- Witness for c9_cleanup_only_closes_socket at fd = 7. -/
theorem c9_cleanup_only_closes_socket_witness :
    (handleConnCleanup 7).socketClosed = true ∧
    (handleConnCleanup 7).engineFreed = false ∧
    (handleConnCleanup 7).accumulatorFreed = false :=
  c9_cleanup_only_closes_socket 7 (by decide)

/-- C7 counterexample: with accumulated bytes 0, 13, 10, 13, 10 (a NUL
byte followed by the double-CRLF pattern) and length 5, the pattern does
occur within the first 5 accumulated bytes, yet request_is_finished
returns false: strstr stops scanning at the first NUL byte, so the claim
that the scan works regardless of the accumulated byte values fails. -/
theorem c7_counterexample :
    (request_is_finished ⟨[0, 13, 10, 13, 10] ++ List.replicate 2043 0, 5, 2048⟩).1 = false ∧
    occursInList crlfcrlf ((([0, 13, 10, 13, 10] ++ List.replicate 2043 0) : List Nat).take 5) =
      true := by
  decide

/-- C7 (amended): request_is_finished writes the temporary 0 terminator
byte at index length, and returns true exactly when the double-CRLF
pattern occurs within the prefix of the first length accumulated bytes
that precedes the first NUL byte; an accumulated NUL byte truncates the
scan (strstr semantics). -/
theorem c7_scan_stops_at_nul (c : ConnData) (h : c.dataLen < c.buf.length) :
    (request_is_finished c).1 =
      occursInList crlfcrlf ((c.buf.take c.dataLen).takeWhile (fun b => b ≠ 0)) ∧
    (request_is_finished c).2.buf = c.buf.set c.dataLen 0 := by
  refine ⟨?_, rfl⟩
  rw [request_is_finished]
  dsimp only
  rw [takeWhile_set_zero c.buf c.dataLen h]

/-- Witness for c7_scan_stops_at_nul on a concrete 6-byte buffer. -/
theorem c7_scan_stops_at_nul_witness :
    (request_is_finished ⟨[72, 13, 10, 13, 10, 0], 5, 2048⟩).1 =
      occursInList crlfcrlf
        ((([72, 13, 10, 13, 10, 0] : List Nat).take 5).takeWhile (fun b => b ≠ 0)) ∧
    (request_is_finished ⟨[72, 13, 10, 13, 10, 0], 5, 2048⟩).2.buf =
      ([72, 13, 10, 13, 10, 0] : List Nat).set 5 0 :=
  c7_scan_stops_at_nul ⟨[72, 13, 10, 13, 10, 0], 5, 2048⟩ (by decide)

/-- C8 counterexample: two runs of the plaintext-drain step that differ
only in whether the stdout sink writes succeed produce different results:
with a working sink the drain returns OK, with a failing sink it returns
ERROR, which handle_conn treats as fatal for the connection; forwarding to
the sink is therefore not a pure side effect. -/
theorem c8_counterexample :
    (copy_plaintext_to_buffer true ⟨[65], false, false⟩ initialConn).1 = DemoResult.ok ∧
    (copy_plaintext_to_buffer false ⟨[65], false, false⟩ initialConn).1 = DemoResult.error := by
  decide

/-- C8 (amended): whenever a nonempty plaintext chunk is drained (the
engine is healthy, plaintext is pending and the buffer has room), a
failing sink write makes copy_plaintext_to_buffer return ERROR, so a
sink-write failure terminates the connection rather than being ignored. -/
theorem c8_sink_failure_is_fatal (e : Engine) (c : ConnData)
    (hE : e.readErr = false) (hCN : e.closeNotifySeen = false)
    (hP : e.pending ≠ []) (hA : c.dataLen + 1 < c.dataCapacity) :
    (copy_plaintext_to_buffer false e c).1 = DemoResult.error := by
  have hplen : e.pending.length ≠ 0 := by
    simpa [List.length_eq_zero] using hP
  have hne : (e.pending.take
      (min (c.dataCapacity - c.dataLen - 1) e.pending.length)).isEmpty = false := by
    have h2 : (e.pending.take
        (min (c.dataCapacity - c.dataLen - 1) e.pending.length)).length ≠ 0 := by
      rw [List.length_take]
      omega
    simpa [List.isEmpty_iff, ← List.length_eq_zero] using h2
  rw [copy_plaintext_to_buffer, copyLoop]
  simp only [engineRead, ensureHeadroom_dataLen, ensureHeadroom_dataCapacity, hE, hCN,
    Bool.and_false, Bool.false_eq_true, if_false, ite_false, hne]

/-- Witness for c8_sink_failure_is_fatal with one pending byte and the
freshly allocated connection state. -/
theorem c8_sink_failure_is_fatal_witness :
    (copy_plaintext_to_buffer false ⟨[65], false, false⟩ initialConn).1 = DemoResult.error :=
  c8_sink_failure_is_fatal ⟨[65], false, false⟩ initialConn rfl rfl (by decide) (by decide)

/-- C10: from the freshly allocated connection state, after any schedule of
socket rounds the tracked capacity is still 2048 and data_len is strictly
below it, so data_len never reaches 2048 and the sentinel write of the
terminator scan targets index data_len inside the tracked capacity;
moreover every plaintext-drain step preserves data_len < data_capacity. -/
theorem c10_dataLen_lt_capacity :
    (∀ (sinkOk : Bool) (cn : CNPost) (rounds : List (List ReadEvent)),
        (runRounds sinkOk cn rounds initialEngine initialConn).2.2.dataLen < 2048 ∧
        (runRounds sinkOk cn rounds initialEngine initialConn).2.2.dataCapacity = 2048) ∧
    (∀ (sinkOk : Bool) (fuel : Nat) (e : Engine) (c : ConnData),
        c.dataLen < c.dataCapacity →
        (copyLoop sinkOk fuel e c).2.2.dataLen < (copyLoop sinkOk fuel e c).2.2.dataCapacity) := by
  constructor
  · intro sinkOk cn rounds
    have h := runRounds_inv sinkOk cn rounds initialEngine initialConn (by decide)
    exact ⟨lt_of_lt_of_eq h.1 h.2, h.2⟩
  · intro sinkOk fuel e c hc
    exact (copyLoop_inv sinkOk fuel e c hc).1

/-- Witness for c10_dataLen_lt_capacity: the drain-step preservation part
applied at a concrete healthy state. -/
theorem c10_dataLen_lt_capacity_witness :
    (copyLoop true 0 initialEngine initialConn).2.2.dataLen <
      (copyLoop true 0 initialEngine initialConn).2.2.dataCapacity :=
  c10_dataLen_lt_capacity.2 true 0 initialEngine initialConn (by decide)

/-- Reduction of do_read on a successful delivery whose drain does not
report a close_notify: the result is exactly the drain result. -/
theorem do_read_deliver_ok (sinkOk : Bool) (cn : CNPost) (d : Delivery) (e : Engine)
    (c : ConnData) (h0 : ¬d.rawLen = 0) (h1 : d.procErr = false)
    (r : DemoResult) (e2 : Engine) (c2 : ConnData)
    (hcp : copy_plaintext_to_buffer sinkOk
        { e with pending := e.pending ++ d.plain,
                 closeNotifySeen := e.closeNotifySeen || d.closeNotifyAlert } c = (r, e2, c2))
    (hr : r ≠ DemoResult.closeNotify) :
    do_read sinkOk cn (ReadEvent.deliver d) e c = (r, e2, c2) := by
  rw [do_read, if_neg h0, if_neg (show ¬(d.procErr = true) by rw [h1]; exact Bool.false_ne_true)]
  rw [hcp]
  rcases r with _ | _ | _ | _ | _
  · rfl
  · rfl
  · rfl
  · rfl
  · exact absurd rfl hr

/-- C1: the accumulated plaintext is not always the full peer plaintext.
A single delivery of 2048 plaintext bytes (value 65) to the fresh
connection leaves the read cycle quiescent (AGAIN): the buffer holds only
the first 2047 bytes (data_len = 2047) and the remaining byte is stuck in
the engine forever, because the stale data_capacity caps every further
drain at data_capacity - data_len - 1 = 0; the accumulated prefix is in
order and duplication-free but not equal to the 2048 bytes sent. -/
theorem c1_roundTrip_stalls_at_2047 :
    readCycle true ⟨RawReadOutcome.bytes 0, 0⟩
        [ReadEvent.deliver ⟨2200, List.replicate 2048 65, false, false⟩]
        initialEngine initialConn =
      (DemoResult.again, ⟨[65], false, false⟩,
        ⟨List.replicate 2047 65 ++ [0], 2047, 2048⟩) ∧
    (⟨List.replicate 2047 65 ++ [0], 2047, 2048⟩ : ConnData).buf.take 2047 =
      List.replicate 2047 65 ∧
    List.replicate 2047 (65 : Nat) ≠ List.replicate 2048 65 := by
  have hensure : ensureHeadroom initialConn = initialConn := by
    rw [ensureHeadroom,
      if_neg (show ¬(initialConn.dataCapacity - initialConn.dataLen < 1024) from by decide)]
  have hmin : min (initialConn.dataCapacity - initialConn.dataLen - 1)
      (List.replicate 2048 (65 : Nat)).length = 2047 := by
    rw [List.length_replicate]
    rfl
  have hc : copy_plaintext_to_buffer true ⟨List.replicate 2048 65, false, false⟩ initialConn =
      (DemoResult.ok, ⟨[65], false, false⟩,
        ⟨List.replicate 2047 65 ++ [0], 2047, 2048⟩) := by
    rw [copy_plaintext_to_buffer, hensure]
    rw [show (Engine.pending ⟨List.replicate 2048 65, false, false⟩).length = 2048 from by
      rw [List.length_replicate]]
    rw [copyLoop_drain 2048 ⟨List.replicate 2048 65, false, false⟩ initialConn rfl rfl
      (by rw [List.length_replicate])]
    rw [Prod.mk.injEq, Prod.mk.injEq]
    refine ⟨rfl, ?_, ?_⟩
    · rw [Engine.mk.injEq]
      refine ⟨?_, rfl, rfl⟩
      rw [hmin, List.drop_replicate, show (2048 : Nat) - 2047 = 1 from rfl, List.replicate_one]
    · rw [ConnData.mk.injEq]
      refine ⟨?_, ?_, rfl⟩
      · rw [hmin, show initialConn.dataLen = 0 from rfl,
          show initialConn.buf = List.replicate 2048 0 from rfl,
          show Engine.pending ⟨List.replicate 2048 65, false, false⟩ =
            List.replicate 2048 (65 : Nat) from rfl]
        rw [memcpyAt, List.take_zero, List.nil_append, List.take_replicate,
          show (2047 : Nat) ⊓ 2048 = 2047 from by omega, List.length_replicate,
          show (0 : Nat) + 2047 = 2047 from rfl, List.drop_replicate,
          show (2048 : Nat) - 2047 = 1 from rfl, List.replicate_one]
      · rw [hmin]
        decide
  refine ⟨?_, ?_, ?_⟩
  · rw [readCycle]
    rw [do_read_deliver_ok true ⟨RawReadOutcome.bytes 0, 0⟩
        ⟨2200, List.replicate 2048 65, false, false⟩ initialEngine initialConn
        (by decide) rfl DemoResult.ok ⟨[65], false, false⟩
        ⟨List.replicate 2047 65 ++ [0], 2047, 2048⟩ ?_ (by decide)]
    · rfl
    · rw [show ({ initialEngine with
          pending := initialEngine.pending ++
            Delivery.plain ⟨2200, List.replicate 2048 65, false, false⟩,
          closeNotifySeen := initialEngine.closeNotifySeen ||
            Delivery.closeNotifyAlert ⟨2200, List.replicate 2048 65, false, false⟩ } : Engine) =
          ⟨List.replicate 2048 65, false, false⟩ from ?_]
      · exact hc
      · rw [Engine.mk.injEq]
        refine ⟨?_, rfl, rfl⟩
        rw [show initialEngine.pending = ([] : List Nat) from rfl, List.nil_append]
  · rw [show (⟨List.replicate 2047 65 ++ [0], 2047, 2048⟩ : ConnData).buf =
        List.replicate 2047 65 ++ [0] from rfl]
    rw [List.take_append_eq_append_take, List.take_replicate, List.length_replicate,
      show (2047 : Nat) ⊓ 2047 = 2047 from by omega,
      show (2047 : Nat) - 2047 = 0 from rfl, List.take_zero, List.append_nil]
  · intro hcontra
    have hlen := congrArg List.length hcontra
    rw [List.length_replicate, List.length_replicate] at hlen
    omega

end Crustls
